import Mathlib

/-!
Shallow embedding of `duckling_mallard_analysis/testing.py`: span extraction
from the annotated corpus, normalization of the two recognizers' responses,
exact-match correctness evaluation, cross-recognizer comparison and conflict
detection, together with theorems checking the specification's claims.

Python strings are modelled as `List Char`, Python dicts as insertion-ordered
association lists, raised exceptions as `Option`/`Except` results.
-/

set_option autoImplicit false

namespace DucklingMallard

/-- Dimension labels and entity texts: Python `str` as a list of characters. -/
abbrev Label := List Char

/-- A span: a pair `(start, end)` of character offsets, half-open. -/
abbrev Span := Nat × Nat

/-- `NormalizedOutput` for one query: an insertion-ordered dict from dimension
to an insertion-ordered dict from span to value, as built by the two
`parse_*_response` functions. -/
abbrev Output (V : Type) := List (Label × List (Span × V))

/-- Python `output[dim]` over the association-list model of the outer dict. -/
def lookupDim {V : Type} : Output V → Label → Option (List (Span × V))
  | [], _ => none
  | p :: rest, d => if p.1 = d then some p.2 else lookupDim rest d

/-- Python `dim in output` for the outer dict. -/
def memDim {V : Type} (out : Output V) (d : Label) : Bool :=
  (lookupDim out d).isSome

/-- Python `span in output[dim]` for an inner dict. -/
def hasSpan {V : Type} : List (Span × V) → Span → Bool
  | [], _ => false
  | q :: rest, sp => if q.1 = sp then true else hasSpan rest sp

/-- Python `inner[span] = value`: overwrite an existing span key in place,
else append at the end (dict insertion order). -/
def insertSpanVal {V : Type} : List (Span × V) → Span → V → List (Span × V)
  | [], sp, v => [(sp, v)]
  | q :: rest, sp, v => if q.1 = sp then (sp, v) :: rest else q :: insertSpanVal rest sp v

/-- Python `possible_entities[dimension][span] = value` on a
`defaultdict(dict)`: update the inner dict of `dimension` in place, creating
the dimension entry at the end if it is absent. -/
def addEntity {V : Type} : Output V → Label → Span → V → Output V
  | [], d, sp, v => [(d, [(sp, v)])]
  | p :: rest, d, sp, v =>
    if p.1 = d then (d, insertSpanVal p.2 sp v) :: rest else p :: addEntity rest d sp v

/-- Remove a whole dimension entry from an output. -/
def removeDim {V : Type} (out : Output V) (d : Label) : Output V :=
  out.filter (fun p => decide (p.1 ≠ d))

/-- Map a function over all values of an output, keeping all keys. -/
def mapOutputVal {V W : Type} (f : V → W) (out : Output V) : Output W :=
  out.map (fun p => (p.1, p.2.map (fun q => (q.1, f q.2))))

/-! ### Correctness Evaluator: `evaluate_ser` (testing.py lines 179-209) -/

/-- One step of the `correct` flag in `evaluate_ser`'s inner loop
(testing.py lines 195-203): a missing dimension or a missing span key
forces the flag to `False`, otherwise it is left alone. -/
def correctStep {V : Type} (output : Output V) (correct : Bool)
    (ent : Nat × Nat × Label) : Bool :=
  match lookupDim output ent.2.2 with
  | none => false
  | some m => if hasSpan m (ent.1, ent.2.1) then correct else false

/-- The `correct` flag `evaluate_ser` computes for one query. -/
def queryCorrect {V : Type} (entityInfo : List (Nat × Nat × Label))
    (output : Output V) : Bool :=
  entityInfo.foldl (correctStep output) true

/-- The accumulation loop of `evaluate_ser` (lines 191-207), appending each
index to the correct or the incorrect list. -/
def evalSerAux {V : Type} (i : Nat) :
    List (List (Nat × Nat × Label) × Output V) → List Nat × List Nat
  | [] => ([], [])
  | (e, o) :: rest =>
    let r := evalSerAux (i + 1) rest
    if queryCorrect e o then (i :: r.1, r.2) else (r.1, i :: r.2)

/-- `evaluate_ser` (lines 179-209): returns the pair
`(correct_queries, incorrect_queries)` of index lists. -/
def evaluate_ser {V : Type} (entity : List (List (Nat × Nat × Label)))
    (outputs : List (Output V)) : List Nat × List Nat :=
  evalSerAux 0 (entity.zip outputs)

/-- The claim's per-entity condition: the label is a key of the output and
the span is a span key of `output[label]`. -/
def entPresent {V : Type} (output : Output V) (ent : Nat × Nat × Label) : Bool :=
  match lookupDim output ent.2.2 with
  | none => false
  | some m => hasSpan m (ent.1, ent.2.1)

/-! ### Error classifier: `evaluate_ser_errors` (testing.py lines 212-246) -/

/-- `entMissed output ent`: the ground-truth label has no entry at all in
the output (`entity_type not in output`). -/
def entMissed {V : Type} (output : Output V) (ent : Nat × Nat × Label) : Bool :=
  (lookupDim output ent.2.2).isNone

/-- `entSpanBad output ent`: the dimension is present but the exact span key
is absent (`span not in output[entity_type]`). -/
def entSpanBad {V : Type} (output : Output V) (ent : Nat × Nat × Label) : Bool :=
  match lookupDim output ent.2.2 with
  | none => false
  | some m => !hasSpan m (ent.1, ent.2.1)

/-- One step of the `missed_entity` / `incorrect_span` flag pair in
`evaluate_ser_errors`'s inner loop (lines 228-241). -/
def flagStep {V : Type} (output : Output V) (fl : Bool × Bool)
    (ent : Nat × Nat × Label) : Bool × Bool :=
  match lookupDim output ent.2.2 with
  | none => (true, fl.2)
  | some m => if hasSpan m (ent.1, ent.2.1) then fl else (fl.1, true)

/-- The `(missed_entity, incorrect_span)` flag pair `evaluate_ser_errors`
computes for one query. -/
def queryFlags {V : Type} (entityInfo : List (Nat × Nat × Label))
    (output : Output V) : Bool × Bool :=
  entityInfo.foldl (flagStep output) (false, false)

/-- The accumulation loop of `evaluate_ser_errors` (lines 223-244).  The
`if i not in list` guards of the source only deduplicate the index within a
single query's inner loop, so each query contributes its index at most once
to each list, exactly when the corresponding flag is set. -/
def evalErrAux {V : Type} (i : Nat) :
    List (List (Nat × Nat × Label) × Output V) →
      List Nat × List Nat × List Nat
  | [] => ([], [], [])
  | (e, o) :: rest =>
    let r := evalErrAux (i + 1) rest
    let fl := queryFlags e o
    ((if fl.1 then i :: r.1 else r.1),
     (if fl.2 then i :: r.2.1 else r.2.1),
     (if !fl.1 && !fl.2 then i :: r.2.2 else r.2.2))

/-- `evaluate_ser_errors` (lines 212-246): returns the triple
`(missed_entity_indices, incorrect_span_indices, correct_indices)`. -/
def evaluate_ser_errors {V : Type} (entities : List (List (Nat × Nat × Label)))
    (outputs : List (Output V)) : List Nat × List Nat × List Nat :=
  evalErrAux 0 (entities.zip outputs)

/-! ### Cross-Recognizer Comparator: `compare_mallard_duckling`
(testing.py lines 249-280) -/

/-- The exempt dimension skipped by the comparator (testing.py line 264). -/
def amountOfMoney : Label := "amount-of-money".data

/-- One step of the `same` flag in `compare_mallard_duckling`'s loop over
the duckling output (lines 263-274): the exempt dimension is skipped; a
dimension absent from the mallard output, or any duckling span key absent
from the mallard span keys of that dimension, forces the flag to `False`. -/
def sameStep {V W : Type} (mallard : Output V) (same : Bool)
    (p : Label × List (Span × W)) : Bool :=
  if p.1 = amountOfMoney then same
  else
    match lookupDim mallard p.1 with
    | none => false
    | some msp => p.2.foldl (fun s q => if hasSpan msp q.1 then s else false) same

/-- The agreement verdict `compare_mallard_duckling` computes for one query
pair. -/
def querySame {V W : Type} (mallard : Output V) (duckling : Output W) : Bool :=
  duckling.foldl (sameStep mallard) true

/-- The accumulation loop of `compare_mallard_duckling` (lines 260-278). -/
def compareAux {V W : Type} (i : Nat) :
    List (Output V × Output W) → List Nat × List Nat
  | [] => ([], [])
  | (m, d) :: rest =>
    let r := compareAux (i + 1) rest
    if querySame m d then (i :: r.1, r.2) else (r.1, i :: r.2)

/-- `compare_mallard_duckling` (lines 249-280): returns the pair
`(present, not_present)` of index lists. -/
def compare_mallard_duckling {V W : Type} (mallards : List (Output V))
    (ducklings : List (Output W)) : List Nat × List Nat :=
  compareAux 0 (mallards.zip ducklings)

/-! ### Conflict Detector: `find_duckling_conflict_queries`
(testing.py lines 283-302) -/

/-- All span keys of one parsed response, flattened across its dimensions in
order (testing.py lines 292-297). -/
def respSpans {V : Type} (resp : Output V) : List Span :=
  (resp.map (fun p => p.2.map Prod.fst)).flatten

/-- The conflict test applied to one response: Python
`len(response_spans) != len(set(response_spans))` (line 299). -/
def hasConflict {V : Type} (resp : Output V) : Bool :=
  decide ((respSpans resp).length ≠ (respSpans resp).dedup.length)

/-- `find_duckling_conflict_queries` (lines 283-302): the source fills a
dict keyed by successive fresh query indices, which is exactly an ordered
list of `(index, response)` pairs for the flagged queries. -/
def find_duckling_conflict_queries {V : Type} (outs : List (Output V)) :
    List (Nat × Output V) :=
  outs.enum.filter (fun p => hasConflict p.2)

/-! ### Span Extractor: `remove_role_and_sys` and `get_expected_spans`
(testing.py lines 15-50)

`get_expected_spans` scans each annotated query with
`re.findall` for the two patterns `\x7b([^\x7b]+)\|sys_[^\s]*\x7d` (entity
text capture) and `\x7b[^\x7b]+\|(sys_[^\s]*)\x7d` (label capture).  The two
patterns match exactly the same occurrences — captures do not influence
matching — so one scan below returns both captures.  Greedy matching with
backtracking is modelled explicitly: body lengths are tried longest first,
then the non-whitespace tail longest first. -/

/-- The opening brace character of an annotation marker. -/
def lbrace : Char := Char.ofNat 123

/-- The closing brace character of an annotation marker. -/
def rbrace : Char := Char.ofNat 125

/-- The regex whitespace class matched by Python `\s` (ASCII part). -/
def isSpaceChar (c : Char) : Bool :=
  c == ' ' || c == '\t' || c == '\n' || c == '\r' ||
    c == Char.ofNat 11 || c == Char.ofNat 12

/-- `leadsWith pat s`: `pat` is an initial segment of `s`. -/
def leadsWith : List Char → List Char → Bool
  | [], _ => true
  | _ :: _, [] => false
  | a :: as, b :: bs => a == b && leadsWith as bs

/-- The literal `|sys_` that must follow the marker body. -/
def pipeSys : List Char := '|' :: "sys_".data

/-- The literal `sys_` that opens the label capture of the second pattern. -/
def sysPre : List Char := "sys_".data

/-- Backtracking for the greedy tail `[^\s]*` followed by a closing brace:
the largest `k` at most the given bound such that the first `k` characters
of `t` are non-whitespace and `t` has a closing brace at position `k`. -/
def tryStar (t : List Char) : Nat → Option Nat
  | 0 => if t.get? 0 = some rbrace then some 0 else none
  | k + 1 =>
    if ((t.take (k + 1)).all fun c => !isSpaceChar c) ∧ t.get? (k + 1) = some rbrace
    then some (k + 1)
    else tryStar t k

/-- Backtracking over the greedy body `[^\x7b]+` of the marker regex: body
lengths are tried longest first; each candidate must be followed by the
literal `|sys_` and a successful non-whitespace tail ending at a closing
brace.  Returns the entity-text capture, the `sys_...` label capture, and
the total number of characters matched, both braces included. -/
def tryBody (rest : List Char) : Nat → Option (List Char × List Char × Nat)
  | 0 => none
  | l + 1 =>
    let t1 := rest.drop (l + 1)
    if leadsWith pipeSys t1 then
      match tryStar (t1.drop 5)
          (((t1.drop 5).takeWhile fun c => !isSpaceChar c).length) with
      | some k =>
        some (rest.take (l + 1), sysPre ++ (t1.drop 5).take k, (l + 1) + k + 7)
      | none => tryBody rest l
    else tryBody rest l

/-- Try to match the marker regex at the head of the character list. -/
def matchMarkerAt : List Char → Option (List Char × List Char × Nat)
  | [] => none
  | c :: rest =>
    if c = lbrace then
      tryBody rest ((rest.takeWhile fun x => x != lbrace).length)
    else none

/-- The scanning loop of `re.findall`: match the marker regex at each
position left to right, resuming after the end of each match.  The fuel
parameter only bounds the number of scan steps; every step consumes at
least one character, so `cs.length` steps always suffice. -/
def findallGo : Nat → List Char → List (List Char × List Char)
  | 0, _ => []
  | _, [] => []
  | fuel + 1, c :: rest =>
    match matchMarkerAt (c :: rest) with
    | some (body, lab, n) => (body, lab) :: findallGo fuel (rest.drop (n - 1))
    | none => findallGo fuel rest

/-- `re.findall` over the annotated query, returning the pair of captures
of each marker occurrence. -/
def findallMarkers (cs : List Char) : List (List Char × List Char) :=
  findallGo cs.length cs

/-- Python `str.index(needle, start)`: the smallest index at least `start`
where `needle` occurs in `hay`; `none` models the raised `ValueError`. -/
def strIndexFrom (hay needle : List Char) (start : Nat) : Option Nat :=
  (List.range (hay.length + 1)).find?
    (fun i => decide (start ≤ i) && leadsWith needle (hay.drop i))

/-- `remove_role_and_sys` (testing.py lines 15-20): Python returns
`x[4:x.index(pipe)]` when a pipe occurs in `x`, else `x[4:]`. -/
def remove_role_and_sys (x : List Char) : List Char :=
  if '|' ∈ x then (x.take (x.findIdx fun c => c == '|')).drop 4
  else x.drop 4

/-- The span-assignment loop of `get_expected_spans` (lines 40-46): locate
each entity text from the cursor on, then advance the cursor to the end of
the matched span; `none` models the `ValueError` raised when the text does
not occur at or after the cursor. -/
def spanLoop (clean : List Char) :
    List (List Char × List Char) → Nat → Option (List (Nat × Nat × Label))
  | [], _ => some []
  | (e, lab) :: rest, pos =>
    match strIndexFrom clean e pos with
    | none => none
    | some s =>
      match spanLoop clean rest (s + e.length) with
      | none => none
      | some tl => some ((s, s + e.length, lab) :: tl)

/-- `get_expected_spans` on one clean/annotated query pair (lines 34-48):
find all markers, strip `sys_` and any pipe-delimited role from each label,
then assign spans left to right. -/
def getSpansOne (clean labeled : List Char) : Option (List (Nat × Nat × Label)) :=
  spanLoop clean
    ((findallMarkers labeled).map (fun p => (p.1, remove_role_and_sys p.2))) 0

/-- The corpus loop of `get_expected_spans` (lines 31-48) over the zipped
clean/annotated queries; an uncaught `ValueError` aborts the whole call. -/
def getSpansAll : List (List Char × List Char) → Option (List (List (Nat × Nat × Label)))
  | [] => some []
  | (c, l) :: rest =>
    match getSpansOne c l with
    | none => none
    | some sp =>
      match getSpansAll rest with
      | none => none
      | some tl => some (sp :: tl)

/-- `get_expected_spans` (testing.py lines 23-50). -/
def get_expected_spans (clean labeled : List (List Char)) :
    Option (List (List (Nat × Nat × Label))) :=
  getSpansAll (clean.zip labeled)

/-! ### Response Normalizers: `parse_mallard_response` and
`parse_duckling_response` (testing.py lines 110-176)

Raw recognizer records are JSON-like dicts; a field is modelled as an
`Option`, with `none` standing for a missing key, and a raised
`KeyError`/`IndexError` as an `Option`/`Except` failure.  Scalar payloads
are opaque at this level and modelled as character lists. -/

/-- A normalized recognized value: a scalar, a `(from, to)` interval with
either side possibly absent, or Python `None`. -/
inductive NVal where
  | scalar : Label → NVal
  | interval : Option Label → Option Label → NVal
  | null : NVal
deriving DecidableEq

/-- One Mallard entity record: the fields read by the parser
(`r['dimension']`, `r['entity']['start']`, `r['entity']['end']`,
`r['value']`); a missing `entity` dict behaves like missing `start`/`end`
(any of them raises `KeyError`). -/
structure MallardRecord where
  dimension : Option Label
  entStart : Option Nat
  entEnd : Option Nat
  value : Option (List NVal)
deriving DecidableEq

/-- Outcome of the field accesses of one iteration of
`parse_mallard_response`'s loop (testing.py lines 120-123): `dimErr` —
`r['dimension']` itself raised `KeyError`, so this iteration did not bind
the local `dimension`; `laterErr` — a later access (`r['entity'][...]` or
`r['value'][0]`) raised after `dimension` was bound to the given label;
`ok` — all accesses succeeded. -/
inductive MallardStep where
  | dimErr : MallardStep
  | laterErr : Label → MallardStep
  | ok : Label × Span × NVal → MallardStep
deriving DecidableEq

/-- The field accesses of one iteration of `parse_mallard_response`'s loop
(testing.py lines 120-123), in source order: `dimension` first, then the
`entity` span fields, then `r['value'][0]`. -/
def parseMallardRecord (r : MallardRecord) : MallardStep :=
  match r.dimension with
  | none => .dimErr
  | some d =>
    match r.entStart, r.entEnd with
    | some s, some e =>
      match r.value with
      | none => .laterErr d
      | some vs =>
        match vs with
        | [] => .laterErr d
        | v :: _ => .ok (d, (s, e), v)
    | _, _ => .laterErr d

/-- The loop of `parse_mallard_response` (lines 118-129): the single `try`
wraps the whole loop, so the first failing record stops processing and all
later records are dropped.  The `except` handler prints `dimension`: if the
failing iteration or some earlier iteration bound it (flag `bound` records
whether any earlier record got past its `dimension` access), the call
returns the entries built so far — but when the very first record fails at
`r['dimension']` itself, the handler's `print(dimension)` raises an
uncaught `UnboundLocalError` and the whole call fails. -/
def parseMallardAux : Bool → Output NVal → List MallardRecord →
    Except String (Output NVal)
  | _, acc, [] => .ok acc
  | bound, acc, r :: rs =>
    match parseMallardRecord r with
    | .dimErr => if bound then .ok acc else .error "UnboundLocalError: dimension"
    | .laterErr _ => .ok acc
    | .ok (d, sp, v) => parseMallardAux true (addEntity acc d sp v) rs

/-- `parse_mallard_response` (testing.py lines 110-131). -/
def parse_mallard_response (resp : List MallardRecord) :
    Except String (Output NVal) :=
  parseMallardAux false [] resp

/-- The dimension `time` (testing.py line 147). -/
def timeDim : Label := "time".data

/-- The dimension `temperature` (testing.py line 158). -/
def temperatureDim : Label := "temperature".data

/-- The value object of one Duckling record: `type` discriminator, scalar
payload `value`, and the `from`/`to` bounds read with `.get` (absence of
`from`/`to` yields `None`, not an error). -/
structure DucklingValue where
  vtype : Option Label
  vvalue : Option Label
  vfrom : Option Label
  vto : Option Label
deriving DecidableEq

/-- One Duckling entity record: the fields read by the parser (`r['dim']`,
`r['start']`, `r['end']`, `r['value']`). -/
structure DucklingRecord where
  dim : Option Label
  dstart : Option Nat
  dend : Option Nat
  value : Option DucklingValue
deriving DecidableEq

/-- The body of one iteration of `parse_duckling_response`'s loop
(testing.py lines 142-174).  `Except.error` models an uncaught exception;
the returned message list collects the `UNEXPECTED TIME VALUE` diagnostic
printed for a `time` record with an unrecognized `type`, whose entry is
nevertheless still added with the initial `value = None`. -/
def parseDucklingRecord (r : DucklingRecord) :
    Except String ((Label × Span × NVal) × List String) :=
  match r.dim, r.dstart, r.dend with
  | some d, some s, some e =>
    if d = timeDim then
      match r.value with
      | none => .error "KeyError: value"
      | some v =>
        match v.vtype with
        | none => .error "KeyError: type"
        | some t =>
          if t = "value".data then
            match v.vvalue with
            | none => .error "KeyError: value.value"
            | some sc => .ok ((d, (s, e), NVal.scalar sc), [])
          else if t = "interval".data then
            .ok ((d, (s, e), NVal.interval v.vfrom v.vto), [])
          else
            .ok ((d, (s, e), NVal.null), ["UNEXPECTED TIME VALUE"])
    else if d = temperatureDim ∨ d = amountOfMoney then
      match r.value with
      | none => .error "KeyError: value"
      | some v =>
        match v.vtype with
        | none => .error "KeyError: type"
        | some t =>
          if t = "value".data then
            match v.vvalue with
            | none => .error "KeyError: value.value"
            | some sc => .ok ((d, (s, e), NVal.scalar sc), [])
          else
            .ok ((d, (s, e), NVal.interval v.vfrom v.vto), [])
    else
      match r.value with
      | none => .error "KeyError: value"
      | some v =>
        match v.vvalue with
        | none => .error "KeyError: value.value"
        | some sc => .ok ((d, (s, e), NVal.scalar sc), [])
  | _, _, _ => .error "KeyError: dim or start or end"

/-- The loop of `parse_duckling_response` (lines 142-174): there is no
exception handling, so the first uncaught exception aborts the whole
call. -/
def parseDucklingAux : Output NVal → List String → List DucklingRecord →
    Except String (Output NVal × List String)
  | acc, log, [] => .ok (acc, log)
  | acc, log, r :: rs =>
    match parseDucklingRecord r with
    | .error msg => .error msg
    | .ok ((d, sp, v), msgs) => parseDucklingAux (addEntity acc d sp v) (log ++ msgs) rs

/-- `parse_duckling_response` (testing.py lines 134-176). -/
def parse_duckling_response (resp : List DucklingRecord) :
    Except String (Output NVal × List String) :=
  parseDucklingAux [] [] resp

/-! ### Lemmas about `evaluate_ser` -/

theorem correctStep_eq_and {V : Type} (output : Output V) (c : Bool)
    (ent : Nat × Nat × Label) :
    correctStep output c ent = (c && entPresent output ent) := by
  unfold correctStep entPresent
  cases lookupDim output ent.2.2 with
  | none => simp
  | some m =>
    by_cases h : hasSpan m (ent.1, ent.2.1) = true <;> simp [h]

theorem foldl_correctStep {V : Type} (output : Output V)
    (l : List (Nat × Nat × Label)) (c : Bool) :
    l.foldl (correctStep output) c = (c && l.all (entPresent output)) := by
  induction l generalizing c with
  | nil => simp
  | cons a l ih =>
    simp only [List.foldl_cons, List.all_cons, correctStep_eq_and, ih,
      Bool.and_assoc]

theorem queryCorrect_eq_all {V : Type} (entityInfo : List (Nat × Nat × Label))
    (output : Output V) :
    queryCorrect entityInfo output = entityInfo.all (entPresent output) := by
  simpa using foldl_correctStep output entityInfo true

theorem queryCorrect_iff {V : Type} (entityInfo : List (Nat × Nat × Label))
    (output : Output V) :
    queryCorrect entityInfo output = true ↔
      ∀ ent ∈ entityInfo, entPresent output ent = true := by
  rw [queryCorrect_eq_all, List.all_eq_true]

/-- Every index produced by `evalSerAux i` is at least `i`. -/
theorem evalSerAux_ge {V : Type} (l : List (List (Nat × Nat × Label) × Output V))
    (i : Nat) :
    (∀ j ∈ (evalSerAux i l).1, i ≤ j) ∧ (∀ j ∈ (evalSerAux i l).2, i ≤ j) := by
  induction l generalizing i with
  | nil => simp [evalSerAux]
  | cons p rest ih =>
    obtain ⟨e, o⟩ := p
    have h := ih (i + 1)
    constructor <;> intro j hj <;>
      simp only [evalSerAux] at hj <;>
      by_cases hc : queryCorrect e o = true <;> simp [hc] at hj
    · rcases hj with rfl | hj
      · exact Nat.le_refl _
      · exact Nat.le_of_succ_le (h.1 j hj)
    · exact Nat.le_of_succ_le (h.1 j hj)
    · exact Nat.le_of_succ_le (h.2 j hj)
    · rcases hj with rfl | hj
      · exact Nat.le_refl _
      · exact Nat.le_of_succ_le (h.2 j hj)

/-- Membership characterization of the two lists built by `evalSerAux`. -/
theorem evalSerAux_mem {V : Type} (l : List (List (Nat × Nat × Label) × Output V))
    (k j : Nat) (e : List (Nat × Nat × Label)) (o : Output V)
    (hget : l.get? j = some (e, o)) :
    ((k + j) ∈ (evalSerAux k l).1 ↔ queryCorrect e o = true) ∧
    ((k + j) ∈ (evalSerAux k l).2 ↔ queryCorrect e o = false) := by
  induction l generalizing k j with
  | nil => simp at hget
  | cons p rest ih =>
    obtain ⟨e0, o0⟩ := p
    cases j with
    | zero =>
      simp only [List.get?] at hget
      injection hget with h
      injection h with h1 h2
      subst h1
      subst h2
      have hge := evalSerAux_ge rest (k + 1)
      constructor
      · simp only [evalSerAux, Nat.add_zero]
        by_cases hc : queryCorrect e0 o0 = true
        · simp [hc]
        · rw [if_neg hc]
          constructor
          · intro hmem
            have := hge.1 _ hmem
            omega
          · intro h
            exact absurd h hc
      · simp only [evalSerAux, Nat.add_zero]
        by_cases hc : queryCorrect e0 o0 = true
        · rw [if_pos hc]
          constructor
          · intro hmem
            have := hge.2 _ hmem
            omega
          · intro h
            rw [hc] at h
            cases h
        · rw [if_neg hc]
          simp only [List.mem_cons]
          constructor
          · intro _
            exact Bool.eq_false_iff.mpr hc
          · intro _
            exact Or.inl trivial
    | succ j' =>
      simp only [List.get?] at hget
      have ihh := ih (k + 1) j' hget
      have harith : k + (j' + 1) = (k + 1) + j' := by omega
      rw [harith]
      simp only [evalSerAux]
      by_cases hc : queryCorrect e0 o0 = true
      · rw [if_pos hc]
        constructor
        · simp only [List.mem_cons]
          constructor
          · rintro (h | h)
            · omega
            · exact ihh.1.mp h
          · intro h
            exact Or.inr (ihh.1.mpr h)
        · exact ihh.2
      · rw [if_neg hc]
        constructor
        · exact ihh.1
        · simp only [List.mem_cons]
          constructor
          · rintro (h | h)
            · omega
            · exact ihh.2.mp h
          · intro h
            exact Or.inr (ihh.2.mpr h)

theorem entPresent_iff {V : Type} (output : Output V) (ent : Nat × Nat × Label) :
    entPresent output ent = true ↔
      ∃ m, lookupDim output ent.2.2 = some m ∧ hasSpan m (ent.1, ent.2.1) = true := by
  unfold entPresent
  cases h : lookupDim output ent.2.2 with
  | none => simp
  | some m => simp

theorem lookupDim_mapOutputVal {V W : Type} (f : V → W) (out : Output V) (d : Label) :
    lookupDim (mapOutputVal f out) d
      = (lookupDim out d).map (fun m => m.map (fun q => (q.1, f q.2))) := by
  induction out with
  | nil => rfl
  | cons p rest ih =>
    simp only [mapOutputVal, List.map_cons, lookupDim]
    by_cases h : p.1 = d
    · rw [if_pos h, if_pos h]
      rfl
    · rw [if_neg h, if_neg h]
      exact ih

theorem hasSpan_map {V W : Type} (f : V → W) (m : List (Span × V)) (sp : Span) :
    hasSpan (m.map (fun q => (q.1, f q.2))) sp = hasSpan m sp := by
  induction m with
  | nil => rfl
  | cons q rest ih =>
    simp only [List.map_cons, hasSpan]
    by_cases h : q.1 = sp
    · rw [if_pos h, if_pos h]
    · rw [if_neg h, if_neg h]
      exact ih

theorem entPresent_mapOutputVal {V W : Type} (f : V → W) (out : Output V)
    (ent : Nat × Nat × Label) :
    entPresent (mapOutputVal f out) ent = entPresent out ent := by
  unfold entPresent
  rw [lookupDim_mapOutputVal]
  cases lookupDim out ent.2.2 with
  | none => rfl
  | some m => exact hasSpan_map f m _

theorem queryCorrect_mapOutputVal {V W : Type} (f : V → W)
    (e : List (Nat × Nat × Label)) (o : Output V) :
    queryCorrect e (mapOutputVal f o) = queryCorrect e o := by
  rw [queryCorrect_eq_all, queryCorrect_eq_all]
  induction e with
  | nil => rfl
  | cons ent rest ih =>
    simp only [List.all_cons, entPresent_mapOutputVal, ih]

theorem evalSerAux_mapOutputVal {V W : Type} (f : V → W)
    (ents : List (List (Nat × Nat × Label))) (outs : List (Output V)) (k : Nat) :
    evalSerAux k (ents.zip (outs.map (mapOutputVal f)))
      = evalSerAux k (ents.zip outs) := by
  induction ents generalizing outs k with
  | nil => rfl
  | cons e ents ih =>
    cases outs with
    | nil => rfl
    | cons o outs =>
      show evalSerAux k ((e, mapOutputVal f o) :: ents.zip (outs.map (mapOutputVal f)))
          = evalSerAux k ((e, o) :: ents.zip outs)
      simp only [evalSerAux, queryCorrect_mapOutputVal, ih]

/-- **C1.** `evaluate_ser` classifies query `i` as correct iff every
ground-truth entity `(start, end, label)` has `label` as a key of the
normalized output and `(start, end)` as a span key of `output[label]`;
otherwise it is classified incorrect. Value correctness is not consulted:
rewriting every recognized value by any function leaves the classification
unchanged. -/
theorem evaluate_ser_correct_iff {V : Type}
    (entity : List (List (Nat × Nat × Label))) (outputs : List (Output V))
    (i : Nat) (einfo : List (Nat × Nat × Label)) (output : Output V)
    (hget : (entity.zip outputs).get? i = some (einfo, output)) :
    (i ∈ (evaluate_ser entity outputs).1 ↔
       ∀ ent ∈ einfo, ∃ m, lookupDim output ent.2.2 = some m ∧
         hasSpan m (ent.1, ent.2.1) = true) ∧
    (i ∈ (evaluate_ser entity outputs).2 ↔
       ¬ ∀ ent ∈ einfo, ∃ m, lookupDim output ent.2.2 = some m ∧
         hasSpan m (ent.1, ent.2.1) = true) ∧
    (∀ (W : Type) (f : V → W),
       evaluate_ser entity (outputs.map (mapOutputVal f)) =
         evaluate_ser entity outputs) := by
  have hm := evalSerAux_mem (entity.zip outputs) 0 i einfo output hget
  rw [Nat.zero_add] at hm
  have hpred : (queryCorrect einfo output = true) ↔
      ∀ ent ∈ einfo, ∃ m, lookupDim output ent.2.2 = some m ∧
        hasSpan m (ent.1, ent.2.1) = true := by
    rw [queryCorrect_iff]
    constructor
    · intro h ent hent
      exact (entPresent_iff output ent).mp (h ent hent)
    · intro h ent hent
      exact (entPresent_iff output ent).mpr (h ent hent)
  refine ⟨?_, ?_, ?_⟩
  · rw [show evaluate_ser entity outputs = evalSerAux 0 (entity.zip outputs) from rfl,
      hm.1]
    exact hpred
  · rw [show evaluate_ser entity outputs = evalSerAux 0 (entity.zip outputs) from rfl,
      hm.2]
    rw [← hpred]
    constructor
    · intro h
      rw [h]
      simp
    · intro h
      cases hq : queryCorrect einfo output
      · rfl
      · exact absurd hq h
  · intro W f
    unfold evaluate_ser
    exact evalSerAux_mapOutputVal f entity outputs 0

/-- Closed instance of `evaluate_ser_correct_iff` at a concrete corpus. -/
theorem evaluate_ser_correct_iff_witness :
    (0 ∈ (evaluate_ser [[(0, 1, "one".data)]]
        ([[("one".data, [((0, 1), 7)])]] : List (Output Nat))).1 ↔
       ∀ ent ∈ [(0, 1, "one".data)], ∃ m,
         lookupDim [("one".data, [((0, 1), 7)])] ent.2.2 = some m ∧
         hasSpan m (ent.1, ent.2.1) = true) ∧
    (0 ∈ (evaluate_ser [[(0, 1, "one".data)]]
        ([[("one".data, [((0, 1), 7)])]] : List (Output Nat))).2 ↔
       ¬ ∀ ent ∈ [(0, 1, "one".data)], ∃ m,
         lookupDim [("one".data, [((0, 1), 7)])] ent.2.2 = some m ∧
         hasSpan m (ent.1, ent.2.1) = true) ∧
    (∀ (W : Type) (f : Nat → W),
       evaluate_ser [[(0, 1, "one".data)]]
           (([[("one".data, [((0, 1), 7)])]] : List (Output Nat)).map (mapOutputVal f)) =
         evaluate_ser [[(0, 1, "one".data)]] [[("one".data, [((0, 1), 7)])]]) :=
  evaluate_ser_correct_iff [[(0, 1, "one".data)]] [[("one".data, [((0, 1), 7)])]]
    0 [(0, 1, "one".data)] [("one".data, [((0, 1), 7)])] rfl

/-! ### Lemmas about `evaluate_ser_errors` -/

theorem flagStep_eq_or {V : Type} (output : Output V) (fl : Bool × Bool)
    (ent : Nat × Nat × Label) :
    flagStep output fl ent
      = (fl.1 || entMissed output ent, fl.2 || entSpanBad output ent) := by
  unfold flagStep entMissed entSpanBad
  cases h : lookupDim output ent.2.2 with
  | none => simp
  | some m =>
    cases hs : hasSpan m (ent.1, ent.2.1) <;> simp [hs]

theorem foldl_flagStep {V : Type} (output : Output V)
    (l : List (Nat × Nat × Label)) (fl : Bool × Bool) :
    l.foldl (flagStep output) fl
      = (fl.1 || l.any (entMissed output), fl.2 || l.any (entSpanBad output)) := by
  induction l generalizing fl with
  | nil => simp
  | cons a l ih =>
    rw [List.foldl_cons, ih, flagStep_eq_or]
    simp [Bool.or_assoc]

theorem queryFlags_eq {V : Type} (entityInfo : List (Nat × Nat × Label))
    (output : Output V) :
    queryFlags entityInfo output
      = (entityInfo.any (entMissed output), entityInfo.any (entSpanBad output)) := by
  unfold queryFlags
  rw [foldl_flagStep]
  simp

theorem entPresent_iff_flags {V : Type} (output : Output V)
    (ent : Nat × Nat × Label) :
    entPresent output ent = true ↔
      (entMissed output ent = false ∧ entSpanBad output ent = false) := by
  unfold entPresent entMissed entSpanBad
  cases h : lookupDim output ent.2.2 with
  | none => simp
  | some m => cases hs : hasSpan m (ent.1, ent.2.1) <;> simp [hs]

/-- A query is scored correct by `evaluate_ser` exactly when
`evaluate_ser_errors` raises neither of its two flags for it. -/
theorem queryCorrect_iff_flags {V : Type} (e : List (Nat × Nat × Label))
    (o : Output V) :
    queryCorrect e o = true ↔ queryFlags e o = (false, false) := by
  rw [queryCorrect_iff, queryFlags_eq, Prod.mk.injEq]
  constructor
  · intro h
    constructor
    · cases hm : e.any (entMissed o) with
      | false => rfl
      | true =>
        obtain ⟨ent, hent, hflag⟩ := List.any_eq_true.mp hm
        have := ((entPresent_iff_flags o ent).mp (h ent hent)).1
        rw [this] at hflag
        cases hflag
    · cases hm : e.any (entSpanBad o) with
      | false => rfl
      | true =>
        obtain ⟨ent, hent, hflag⟩ := List.any_eq_true.mp hm
        have := ((entPresent_iff_flags o ent).mp (h ent hent)).2
        rw [this] at hflag
        cases hflag
  · rintro ⟨h1, h2⟩ ent hent
    rw [entPresent_iff_flags]
    constructor
    · cases hm : entMissed o ent with
      | false => rfl
      | true =>
        have : e.any (entMissed o) = true := List.any_eq_true.mpr ⟨ent, hent, hm⟩
        rw [h1] at this
        cases this
    · cases hm : entSpanBad o ent with
      | false => rfl
      | true =>
        have : e.any (entSpanBad o) = true := List.any_eq_true.mpr ⟨ent, hent, hm⟩
        rw [h2] at this
        cases this

/-- Every index produced by `evalErrAux i` is at least `i`. -/
theorem evalErrAux_ge {V : Type} (l : List (List (Nat × Nat × Label) × Output V))
    (i : Nat) :
    (∀ j ∈ (evalErrAux i l).1, i ≤ j) ∧ (∀ j ∈ (evalErrAux i l).2.1, i ≤ j) ∧
    (∀ j ∈ (evalErrAux i l).2.2, i ≤ j) := by
  induction l generalizing i with
  | nil => simp [evalErrAux]
  | cons p rest ih =>
    obtain ⟨e, o⟩ := p
    have h := ih (i + 1)
    refine ⟨?_, ?_, ?_⟩ <;> intro j hj <;>
      simp only [evalErrAux] at hj
    · rcases hb : (queryFlags e o).1 with _ | _ <;> rw [hb] at hj
      · exact Nat.le_of_succ_le (h.1 j (by simpa using hj))
      · rcases List.mem_cons.mp (by simpa using hj) with rfl | hj'
        · exact Nat.le_refl _
        · exact Nat.le_of_succ_le (h.1 j hj')
    · rcases hb : (queryFlags e o).2 with _ | _ <;> rw [hb] at hj
      · exact Nat.le_of_succ_le (h.2.1 j (by simpa using hj))
      · rcases List.mem_cons.mp (by simpa using hj) with rfl | hj'
        · exact Nat.le_refl _
        · exact Nat.le_of_succ_le (h.2.1 j hj')
    · rcases hb : (!(queryFlags e o).1 && !(queryFlags e o).2) with _ | _ <;>
        rw [hb] at hj
      · exact Nat.le_of_succ_le (h.2.2 j (by simpa using hj))
      · rcases List.mem_cons.mp (by simpa using hj) with rfl | hj'
        · exact Nat.le_refl _
        · exact Nat.le_of_succ_le (h.2.2 j hj')

/-- Membership characterization of the three lists built by `evalErrAux`. -/
theorem evalErrAux_mem {V : Type}
    (l : List (List (Nat × Nat × Label) × Output V)) (k j : Nat)
    (e : List (Nat × Nat × Label)) (o : Output V)
    (hget : l.get? j = some (e, o)) :
    ((k + j) ∈ (evalErrAux k l).1 ↔ (queryFlags e o).1 = true) ∧
    ((k + j) ∈ (evalErrAux k l).2.1 ↔ (queryFlags e o).2 = true) ∧
    ((k + j) ∈ (evalErrAux k l).2.2 ↔ queryFlags e o = (false, false)) := by
  induction l generalizing k j with
  | nil => simp at hget
  | cons p rest ih =>
    obtain ⟨e0, o0⟩ := p
    cases j with
    | zero =>
      simp only [List.get?] at hget
      injection hget with h
      injection h with h1 h2
      subst h1
      subst h2
      have hge := evalErrAux_ge rest (k + 1)
      refine ⟨?_, ?_, ?_⟩
      · simp only [evalErrAux, Nat.add_zero]
        cases hb : (queryFlags e0 o0).1 with
        | true => simp
        | false =>
          simp only [Bool.false_eq_true, if_false]
          constructor
          · intro hmem
            have := hge.1 _ hmem
            omega
          · intro h
            cases h
      · simp only [evalErrAux, Nat.add_zero]
        cases hb : (queryFlags e0 o0).2 with
        | true => simp
        | false =>
          simp only [Bool.false_eq_true, if_false]
          constructor
          · intro hmem
            have := hge.2.1 _ hmem
            omega
          · intro h
            cases h
      · simp only [evalErrAux, Nat.add_zero]
        cases hb : (!(queryFlags e0 o0).1 && !(queryFlags e0 o0).2) with
        | true =>
          have hfl : queryFlags e0 o0 = (false, false) := by
            have h1 := (Bool.and_eq_true _ _).mp hb
            have hx : (queryFlags e0 o0).1 = false := by
              cases hy : (queryFlags e0 o0).1
              · rfl
              · rw [hy] at h1
                simpa using h1.1
            have hz : (queryFlags e0 o0).2 = false := by
              cases hy : (queryFlags e0 o0).2
              · rfl
              · rw [hy] at h1
                simpa using h1.2
            cases hq : queryFlags e0 o0
            rw [hq] at hx hz
            simp at hx hz
            rw [hx, hz]
          simp [hfl]
        | false =>
          have hfl : queryFlags e0 o0 ≠ (false, false) := by
            intro hq
            rw [hq] at hb
            simp at hb
          simp only [Bool.false_eq_true, if_false]
          constructor
          · intro hmem
            have := hge.2.2 _ hmem
            omega
          · intro h
            exact absurd h hfl
    | succ j' =>
      simp only [List.get?] at hget
      have ihh := ih (k + 1) j' hget
      have harith : k + (j' + 1) = (k + 1) + j' := by omega
      rw [harith]
      simp only [evalErrAux]
      refine ⟨?_, ?_, ?_⟩
      · cases hb : (queryFlags e0 o0).1 with
        | false =>
          simp only [Bool.false_eq_true, if_false]
          exact ihh.1
        | true =>
          simp only [if_true]
          rw [List.mem_cons]
          constructor
          · rintro (h | h)
            · omega
            · exact ihh.1.mp h
          · intro h
            exact Or.inr (ihh.1.mpr h)
      · cases hb : (queryFlags e0 o0).2 with
        | false =>
          simp only [Bool.false_eq_true, if_false]
          exact ihh.2.1
        | true =>
          simp only [if_true]
          rw [List.mem_cons]
          constructor
          · rintro (h | h)
            · omega
            · exact ihh.2.1.mp h
          · intro h
            exact Or.inr (ihh.2.1.mpr h)
      · cases hb : (!(queryFlags e0 o0).1 && !(queryFlags e0 o0).2) with
        | false =>
          simp only [Bool.false_eq_true, if_false]
          exact ihh.2.2
        | true =>
          simp only [if_true]
          rw [List.mem_cons]
          constructor
          · rintro (h | h)
            · omega
            · exact ihh.2.2.mp h
          · intro h
            exact Or.inr (ihh.2.2.mpr h)

/-- **C9.** The two evaluators agree: a query index lands in
`evaluate_ser`'s correct list exactly when `evaluate_ser_errors` puts it in
`correct_indices`, i.e. exactly when it is flagged with neither
missed-entity nor incorrect-span; and every evaluated query lands in
exactly one of the correct / incorrect lists. -/
theorem evaluators_agree {V : Type}
    (entities : List (List (Nat × Nat × Label))) (outputs : List (Output V))
    (i : Nat) (e : List (Nat × Nat × Label)) (o : Output V)
    (hget : (entities.zip outputs).get? i = some (e, o)) :
    (i ∈ (evaluate_ser entities outputs).1 ↔
       i ∈ (evaluate_ser_errors entities outputs).2.2) ∧
    (i ∈ (evaluate_ser entities outputs).1 ↔
       (i ∉ (evaluate_ser_errors entities outputs).1 ∧
        i ∉ (evaluate_ser_errors entities outputs).2.1)) ∧
    (i ∈ (evaluate_ser entities outputs).1 ↔
       i ∉ (evaluate_ser entities outputs).2) := by
  have hs := evalSerAux_mem (entities.zip outputs) 0 i e o hget
  have he := evalErrAux_mem (entities.zip outputs) 0 i e o hget
  rw [Nat.zero_add] at hs he
  have hser1 : i ∈ (evaluate_ser entities outputs).1 ↔ queryCorrect e o = true := hs.1
  have hser2 : i ∈ (evaluate_ser entities outputs).2 ↔ queryCorrect e o = false := hs.2
  have herr1 : i ∈ (evaluate_ser_errors entities outputs).1 ↔
      (queryFlags e o).1 = true := he.1
  have herr2 : i ∈ (evaluate_ser_errors entities outputs).2.1 ↔
      (queryFlags e o).2 = true := he.2.1
  have herr3 : i ∈ (evaluate_ser_errors entities outputs).2.2 ↔
      queryFlags e o = (false, false) := he.2.2
  refine ⟨?_, ?_, ?_⟩
  · rw [hser1, herr3, queryCorrect_iff_flags]
  · rw [hser1, herr1, herr2, queryCorrect_iff_flags]
    constructor
    · intro h
      rw [h]
      simp
    · rintro ⟨h1, h2⟩
      have hx : (queryFlags e o).1 = false := by
        cases hy : (queryFlags e o).1
        · rfl
        · exact absurd hy h1
      have hz : (queryFlags e o).2 = false := by
        cases hy : (queryFlags e o).2
        · rfl
        · exact absurd hy h2
      cases hq : queryFlags e o
      rw [hq] at hx hz
      simp at hx hz
      rw [hx, hz]
  · rw [hser1, hser2]
    constructor
    · intro h hfalse
      rw [h] at hfalse
      cases hfalse
    · intro h
      cases hq : queryCorrect e o
      · exact absurd hq h
      · rfl

/-- Closed instance of `evaluators_agree`: one query with one ground-truth
entity that the recognizer located at the wrong span. -/
theorem evaluators_agree_witness :
    (0 ∈ (evaluate_ser [[(0, 2, "time".data)]]
        ([[("time".data, [((1, 2), 5)])]] : List (Output Nat))).1 ↔
       0 ∈ (evaluate_ser_errors [[(0, 2, "time".data)]]
        ([[("time".data, [((1, 2), 5)])]] : List (Output Nat))).2.2) ∧
    (0 ∈ (evaluate_ser [[(0, 2, "time".data)]]
        ([[("time".data, [((1, 2), 5)])]] : List (Output Nat))).1 ↔
       (0 ∉ (evaluate_ser_errors [[(0, 2, "time".data)]]
          ([[("time".data, [((1, 2), 5)])]] : List (Output Nat))).1 ∧
        0 ∉ (evaluate_ser_errors [[(0, 2, "time".data)]]
          ([[("time".data, [((1, 2), 5)])]] : List (Output Nat))).2.1)) ∧
    (0 ∈ (evaluate_ser [[(0, 2, "time".data)]]
        ([[("time".data, [((1, 2), 5)])]] : List (Output Nat))).1 ↔
       0 ∉ (evaluate_ser [[(0, 2, "time".data)]]
        ([[("time".data, [((1, 2), 5)])]] : List (Output Nat))).2) :=
  evaluators_agree [[(0, 2, "time".data)]] [[("time".data, [((1, 2), 5)])]]
    0 [(0, 2, "time".data)] [("time".data, [((1, 2), 5)])] rfl

/-- **C10.** A query whose ground-truth entity list is empty is always
classified correct by `evaluate_ser`, placed in `correct_indices` by
`evaluate_ser_errors`, and never placed in the incorrect list — whatever
the recognizer's normalized output. -/
theorem empty_ground_truth_correct {V : Type}
    (entities : List (List (Nat × Nat × Label))) (outputs : List (Output V))
    (i : Nat) (output : Output V)
    (hget : (entities.zip outputs).get? i = some ([], output)) :
    i ∈ (evaluate_ser entities outputs).1 ∧
    i ∈ (evaluate_ser_errors entities outputs).2.2 ∧
    i ∉ (evaluate_ser entities outputs).2 := by
  have hs := evalSerAux_mem (entities.zip outputs) 0 i [] output hget
  have he := evalErrAux_mem (entities.zip outputs) 0 i [] output hget
  rw [Nat.zero_add] at hs he
  refine ⟨hs.1.mpr rfl, he.2.2.mpr rfl, ?_⟩
  intro hmem
  have := hs.2.mp hmem
  cases this

/-- Closed instance of `empty_ground_truth_correct`: empty ground truth
against a non-empty, internally conflicting output. -/
theorem empty_ground_truth_correct_witness :
    0 ∈ (evaluate_ser [([] : List (Nat × Nat × Label))]
      ([[("time".data, [((1, 2), 5)]), ("duration".data, [((1, 2), 6)])]] :
        List (Output Nat))).1 ∧
    0 ∈ (evaluate_ser_errors [([] : List (Nat × Nat × Label))]
      ([[("time".data, [((1, 2), 5)]), ("duration".data, [((1, 2), 6)])]] :
        List (Output Nat))).2.2 ∧
    0 ∉ (evaluate_ser [([] : List (Nat × Nat × Label))]
      ([[("time".data, [((1, 2), 5)]), ("duration".data, [((1, 2), 6)])]] :
        List (Output Nat))).2 :=
  empty_ground_truth_correct [[]]
    [[("time".data, [((1, 2), 5)]), ("duration".data, [((1, 2), 6)])]] 0
    [("time".data, [((1, 2), 5)]), ("duration".data, [((1, 2), 6)])] rfl

/-! ### Lemmas about `compare_mallard_duckling` -/

theorem lookupDim_addEntity_ne {V : Type} (out : Output V) (d : Label)
    (sp : Span) (v : V) (d' : Label) (hne : d' ≠ d) :
    lookupDim (addEntity out d sp v) d' = lookupDim out d' := by
  induction out with
  | nil =>
    show (if d = d' then _ else lookupDim [] d') = lookupDim [] d'
    rw [if_neg (fun h => hne h.symm)]
  | cons p rest ih =>
    by_cases hp : p.1 = d
    · show lookupDim (if p.1 = d then _ else _) d' = _
      rw [if_pos hp]
      show (if d = d' then _ else lookupDim rest d') = _
      rw [if_neg (fun h => hne h.symm)]
      show lookupDim rest d' = lookupDim (p :: rest) d'
      show lookupDim rest d' = (if p.1 = d' then some p.2 else lookupDim rest d')
      rw [if_neg (fun h => hne (hp ▸ h).symm)]
    · show lookupDim (if p.1 = d then _ else p :: addEntity rest d sp v) d' = _
      rw [if_neg hp]
      show (if p.1 = d' then some p.2 else lookupDim (addEntity rest d sp v) d') = _
      rw [ih]
      rfl

theorem lookupDim_removeDim_ne {V : Type} (out : Output V) (d d' : Label)
    (hne : d' ≠ d) :
    lookupDim (removeDim out d) d' = lookupDim out d' := by
  induction out with
  | nil => rfl
  | cons p rest ih =>
    by_cases hp : p.1 = d
    · have : removeDim (p :: rest) d = removeDim rest d := by
        simp [removeDim, List.filter_cons, hp]
      rw [this, ih]
      show lookupDim rest d' = (if p.1 = d' then some p.2 else lookupDim rest d')
      rw [if_neg (fun h => hne (hp ▸ h).symm)]
    · have : removeDim (p :: rest) d = p :: removeDim rest d := by
        simp [removeDim, List.filter_cons, hp]
      rw [this]
      show (if p.1 = d' then some p.2 else lookupDim (removeDim rest d) d') = _
      rw [ih]
      rfl

theorem sameStep_congr {V W : Type} (A A' : Output V)
    (h : ∀ lab, lab ≠ amountOfMoney → lookupDim A' lab = lookupDim A lab)
    (s : Bool) (p : Label × List (Span × W)) :
    sameStep A' s p = sameStep A s p := by
  unfold sameStep
  by_cases hp : p.1 = amountOfMoney
  · rw [if_pos hp, if_pos hp]
  · rw [if_neg hp, if_neg hp, h p.1 hp]

theorem querySame_congr {V W : Type} (A A' : Output V) (B : Output W)
    (h : ∀ lab, lab ≠ amountOfMoney → lookupDim A' lab = lookupDim A lab) :
    querySame A' B = querySame A B := by
  unfold querySame
  suffices h2 : ∀ s, B.foldl (sameStep A') s = B.foldl (sameStep A) s from h2 true
  intro s
  induction B generalizing s with
  | nil => rfl
  | cons p rest ih =>
    rw [List.foldl_cons, List.foldl_cons, sameStep_congr A A' h, ih]

theorem foldl_sameStep_addEntity_amo {V W : Type} (A : Output V) (B : Output W)
    (sp : Span) (w : W) :
    ∀ s, (addEntity B amountOfMoney sp w).foldl (sameStep A) s
      = B.foldl (sameStep A) s := by
  induction B with
  | nil =>
    intro s
    show sameStep A s (amountOfMoney, [(sp, w)]) = s
    simp [sameStep]
  | cons p rest ih =>
    intro s
    by_cases hp : p.1 = amountOfMoney
    · show (if p.1 = amountOfMoney then _ else _ : Output W).foldl (sameStep A) s = _
      rw [if_pos hp, List.foldl_cons, List.foldl_cons]
      have h1 : sameStep A s (amountOfMoney, insertSpanVal p.2 sp w) = s := by
        simp [sameStep]
      have h2 : sameStep A s p = s := by
        unfold sameStep
        rw [if_pos hp]
      rw [h1, h2]
    · show (if p.1 = amountOfMoney then _ else p :: addEntity rest amountOfMoney sp w :
          Output W).foldl (sameStep A) s = _
      rw [if_neg hp, List.foldl_cons, List.foldl_cons, ih]

theorem foldl_sameStep_removeDim_amo {V W : Type} (A : Output V) (B : Output W) :
    ∀ s, (removeDim B amountOfMoney).foldl (sameStep A) s
      = B.foldl (sameStep A) s := by
  induction B with
  | nil => intro s; rfl
  | cons p rest ih =>
    intro s
    by_cases hp : p.1 = amountOfMoney
    · have hf : removeDim (p :: rest) amountOfMoney = removeDim rest amountOfMoney := by
        simp [removeDim, List.filter_cons, hp]
      have h2 : sameStep A s p = s := by
        unfold sameStep
        rw [if_pos hp]
      rw [hf, ih, List.foldl_cons, h2]
    · have hf : removeDim (p :: rest) amountOfMoney
          = p :: removeDim rest amountOfMoney := by
        simp [removeDim, List.filter_cons, hp]
      rw [hf, List.foldl_cons, List.foldl_cons, ih]

/-- **C7.** The agreement verdict of `compare_mallard_duckling` is
insensitive to the exempt dimension `"amount-of-money"`: adding such an
entry to, or removing the whole dimension from, either the mallard or the
duckling output of a query leaves the per-query verdict — and the verdict
lists on a one-query corpus — unchanged. -/
theorem compare_amount_of_money_insensitive {V W : Type} (A : Output V)
    (B : Output W) (sp sp' : Span) (v : V) (w : W) :
    querySame (addEntity A amountOfMoney sp v) B = querySame A B ∧
    querySame A (addEntity B amountOfMoney sp' w) = querySame A B ∧
    querySame (removeDim A amountOfMoney) B = querySame A B ∧
    querySame A (removeDim B amountOfMoney) = querySame A B ∧
    compare_mallard_duckling [addEntity A amountOfMoney sp v] [B]
      = compare_mallard_duckling [A] [B] ∧
    compare_mallard_duckling [A] [addEntity B amountOfMoney sp' w]
      = compare_mallard_duckling [A] [B] ∧
    compare_mallard_duckling [removeDim A amountOfMoney] [B]
      = compare_mallard_duckling [A] [B] ∧
    compare_mallard_duckling [A] [removeDim B amountOfMoney]
      = compare_mallard_duckling [A] [B] := by
  have h1 : querySame (addEntity A amountOfMoney sp v) B = querySame A B :=
    querySame_congr A _ B
      (fun lab hlab => lookupDim_addEntity_ne A amountOfMoney sp v lab hlab)
  have h2 : querySame A (addEntity B amountOfMoney sp' w) = querySame A B :=
    foldl_sameStep_addEntity_amo A B sp' w true
  have h3 : querySame (removeDim A amountOfMoney) B = querySame A B :=
    querySame_congr A _ B
      (fun lab hlab => lookupDim_removeDim_ne A amountOfMoney lab hlab)
  have h4 : querySame A (removeDim B amountOfMoney) = querySame A B :=
    foldl_sameStep_removeDim_amo A B true
  refine ⟨h1, h2, h3, h4, ?_, ?_, ?_, ?_⟩
  · show compareAux 0 [(addEntity A amountOfMoney sp v, B)] = compareAux 0 [(A, B)]
    simp only [compareAux, h1]
  · show compareAux 0 [(A, addEntity B amountOfMoney sp' w)] = compareAux 0 [(A, B)]
    simp only [compareAux, h2]
  · show compareAux 0 [(removeDim A amountOfMoney, B)] = compareAux 0 [(A, B)]
    simp only [compareAux, h3]
  · show compareAux 0 [(A, removeDim B amountOfMoney)] = compareAux 0 [(A, B)]
    simp only [compareAux, h4]

/-! ### Lemmas about `find_duckling_conflict_queries` -/

theorem not_nodup_flatten_iff {α : Type} (L : List (List α))
    (hin : ∀ l ∈ L, l.Nodup) :
    ¬ (L.flatten).Nodup ↔
      ∃ i j, ∃ (hi : i < L.length) (hj : j < L.length),
        i ≠ j ∧ ∃ a, a ∈ L[i] ∧ a ∈ L[j] := by
  rw [List.nodup_flatten]
  constructor
  · intro h
    have hpw : ¬ List.Pairwise List.Disjoint L := fun hp => h ⟨hin, hp⟩
    rw [List.pairwise_iff_getElem] at hpw
    push_neg at hpw
    obtain ⟨i, j, hi, hj, hij, hd⟩ := hpw
    rw [List.disjoint_left] at hd
    push_neg at hd
    obtain ⟨a, ha1, ha2⟩ := hd
    exact ⟨i, j, hi, hj, Nat.ne_of_lt hij, a, ha1, ha2⟩
  · rintro ⟨i, j, hi, hj, hij, a, hai, haj⟩ ⟨_, hpw⟩
    rw [List.pairwise_iff_getElem] at hpw
    rcases Nat.lt_or_ge i j with hlt | hge
    · exact (List.disjoint_left.mp (hpw i j hi hj hlt)) hai haj
    · have hlt : j < i := Nat.lt_of_le_of_ne hge (fun h' => hij h'.symm)
      exact (List.disjoint_left.mp (hpw j i hj hi hlt)) haj hai

theorem hasConflict_iff_not_nodup {V : Type} (resp : Output V) :
    hasConflict resp = true ↔ ¬ (respSpans resp).Nodup := by
  unfold hasConflict
  rw [decide_eq_true_iff]
  constructor
  · intro hne hnd
    exact hne (by rw [hnd.dedup])
  · intro hnd hlen
    exact hnd (List.dedup_eq_self.mp ((List.dedup_sublist _).eq_of_length hlen.symm))

/-- **C6.** On a response whose dimension keys are distinct and whose
per-dimension span keys are distinct (the dict invariants of a
`NormalizedOutput`), `find_duckling_conflict_queries` flags the query
exactly when some span occurs as a key under two different dimensions; a
query whose spans are pairwise distinct across dimensions is never
flagged. -/
theorem conflict_iff_cross_dimension_span {V : Type} (outs : List (Output V))
    (i : Nat) (resp : Output V) (hget : outs.get? i = some resp)
    (hdims : (resp.map Prod.fst).Nodup)
    (hkeys : ∀ p ∈ resp, (p.2.map Prod.fst).Nodup) :
    (i, resp) ∈ find_duckling_conflict_queries outs ↔
      ∃ d1 d2 m1 m2 sp, (d1, m1) ∈ resp ∧ (d2, m2) ∈ resp ∧ d1 ≠ d2 ∧
        sp ∈ m1.map Prod.fst ∧ sp ∈ m2.map Prod.fst := by
  have hmem : (i, resp) ∈ find_duckling_conflict_queries outs ↔
      hasConflict resp = true := by
    unfold find_duckling_conflict_queries
    rw [List.mem_filter]
    have henum : (i, resp) ∈ outs.enum := by
      rw [List.mk_mem_enum_iff_getElem?, ← List.get?_eq_getElem?]
      exact hget
    simp [henum]
  rw [hmem, hasConflict_iff_not_nodup]
  unfold respSpans
  rw [not_nodup_flatten_iff]
  · constructor
    · rintro ⟨a, b, ha0, hb0, hab, sp, hspa, hspb⟩
      have ha : a < resp.length := by simpa using ha0
      have hb : b < resp.length := by simpa using hb0
      have ha2 : a < (resp.map Prod.fst).length := by simpa using ha
      have hb2 : b < (resp.map Prod.fst).length := by simpa using hb
      refine ⟨resp[a].1, resp[b].1, resp[a].2, resp[b].2, sp, ?_, ?_, ?_, ?_, ?_⟩
      · exact List.getElem_mem ha
      · exact List.getElem_mem hb
      · intro hdeq
        apply hab
        have h1 : (resp.map Prod.fst)[a] = (resp.map Prod.fst)[b] := by
          rw [List.getElem_map, List.getElem_map]
          exact hdeq
        exact (hdims.getElem_inj_iff).mp h1
      · simpa using hspa
      · simpa using hspb
    · rintro ⟨d1, d2, m1, m2, sp, h1, h2, hne, hsp1, hsp2⟩
      obtain ⟨a, ha, hea⟩ := List.mem_iff_getElem.mp h1
      obtain ⟨b, hb, heb⟩ := List.mem_iff_getElem.mp h2
      have ha2 : a < (resp.map (fun p => p.2.map Prod.fst)).length := by
        simpa using ha
      have hb2 : b < (resp.map (fun p => p.2.map Prod.fst)).length := by
        simpa using hb
      refine ⟨a, b, ha2, hb2, ?_, sp, ?_, ?_⟩
      · intro hab
        apply hne
        have hre : resp[a] = resp[b] := by
          subst hab
          rfl
        rw [hea, heb] at hre
        exact congrArg Prod.fst hre
      · simp only [List.getElem_map]
        rw [hea]
        exact hsp1
      · simp only [List.getElem_map]
        rw [heb]
        exact hsp2
  · intro l hl
    obtain ⟨p, hp, hpe⟩ := List.mem_map.mp hl
    rw [← hpe]
    exact hkeys p hp

/-- Closed instance of `conflict_iff_cross_dimension_span`: a one-query
corpus where duckling predicts two dimensions at the identical span. -/
theorem conflict_iff_cross_dimension_span_witness :
    ((0, ([("time".data, [((10, 16), 1)]), ("duration".data, [((10, 16), 2)])] :
        Output Nat)) ∈ find_duckling_conflict_queries
        [[("time".data, [((10, 16), 1)]), ("duration".data, [((10, 16), 2)])]] ↔
      ∃ d1 d2 m1 m2 sp,
        (d1, m1) ∈ ([("time".data, [((10, 16), 1)]),
            ("duration".data, [((10, 16), 2)])] : Output Nat) ∧
        (d2, m2) ∈ ([("time".data, [((10, 16), 1)]),
            ("duration".data, [((10, 16), 2)])] : Output Nat) ∧
        d1 ≠ d2 ∧ sp ∈ m1.map Prod.fst ∧ sp ∈ m2.map Prod.fst) :=
  conflict_iff_cross_dimension_span
    [[("time".data, [((10, 16), 1)]), ("duration".data, [((10, 16), 2)])]] 0
    [("time".data, [((10, 16), 1)]), ("duration".data, [((10, 16), 2)])]
    rfl (by decide) (by decide)

/-! ### Lemmas about the Span Extractor -/

theorem findIdx_append_of_not {α : Type} (p : α → Bool) (l1 l2 : List α)
    (h : ∀ a ∈ l1, p a = false) :
    (l1 ++ l2).findIdx p = l1.length + l2.findIdx p := by
  induction l1 with
  | nil => simp
  | cons a l1 ih =>
    rw [List.cons_append, List.findIdx_cons, h a (List.mem_cons_self a l1)]
    simp only [cond_false, List.length_cons]
    rw [ih (fun b hb => h b (List.mem_cons_of_mem a hb))]
    omega

/-- **C3 counterexample.** On the clean query `set a timer for 5 minutes`
with annotated query `set a timer for \x7b5 minutes|sys_duration\x7d`, the
extracted span is not `(19, 28, "duration")` as the claim states. -/
theorem timer_query_span_not_19_28 :
    get_expected_spans ["set a timer for 5 minutes".data]
        ["set a timer for \x7b5 minutes|sys_duration\x7d".data]
      ≠ some [[(19, 28, "duration".data)]] := by
  decide

/-- **C3 (amended).** On the clean query `set a timer for 5 minutes` with
annotated query `set a timer for \x7b5 minutes|sys_duration\x7d`,
`get_expected_spans` returns exactly one ground-truth entity span,
`(16, 25, "duration")` — the character offsets of `5 minutes`. -/
theorem timer_query_span_16_25 :
    get_expected_spans ["set a timer for 5 minutes".data]
        ["set a timer for \x7b5 minutes|sys_duration\x7d".data]
      = some [[(16, 25, "duration".data)]] := by
  decide

/-- **C5 counterexample.** For a marker with a `:`-delimited role,
`\x7btomorrow|sys_time:depart\x7d`, the extracted label is
`time:depart`, not the bare dimension `time`: the role suffix written with
a colon is not removed. -/
theorem colon_role_label_not_stripped :
    get_expected_spans ["tomorrow".data] ["\x7btomorrow|sys_time:depart\x7d".data]
        = some [[(0, 8, "time:depart".data)]] ∧
      ("time:depart".data : List Char) ≠ "time".data := by
  constructor
  · decide
  · decide

/-- **C5 (amended).** `remove_role_and_sys` removes the four-character
`sys_` prefix and a `|`-delimited role suffix, so the label of a marker
`\x7btext|sys_dim\x7d` or `\x7btext|sys_dim|role\x7d` is exactly `dim`; but
a `:`-delimited role suffix as in `\x7btext|sys_dim:role\x7d` is kept
verbatim in the label. -/
theorem remove_role_and_sys_spec (dim role : List Char)
    (hdim : '|' ∉ dim) (hrole : '|' ∉ role) :
    remove_role_and_sys (sysPre ++ dim) = dim ∧
    remove_role_and_sys (sysPre ++ (dim ++ '|' :: role)) = dim ∧
    remove_role_and_sys (sysPre ++ (dim ++ ':' :: role)) = dim ++ ':' :: role := by
  have hsys : ∀ a ∈ sysPre, (a == '|') = false := by
    intro a ha
    have : a = 's' ∨ a = 'y' ∨ a = 's' ∨ a = '_' := by simpa [sysPre] using ha
    rcases this with rfl | rfl | rfl | rfl <;> decide
  have hdim' : ∀ a ∈ dim, (a == '|') = false := by
    intro a ha
    cases hbe : a == '|' with
    | false => rfl
    | true =>
      have : a = '|' := by simpa using hbe
      subst this
      exact absurd ha hdim
  refine ⟨?_, ?_, ?_⟩
  · have hnotmem : '|' ∉ sysPre ++ dim := by
      intro hmem
      rcases List.mem_append.mp hmem with h | h
      · exact absurd h (by decide)
      · exact hdim h
    unfold remove_role_and_sys
    rw [if_neg hnotmem]
    exact List.drop_left sysPre dim
  · have hmem : '|' ∈ sysPre ++ (dim ++ '|' :: role) :=
      List.mem_append_right _ (List.mem_append_right _ (List.mem_cons_self _ _))
    unfold remove_role_and_sys
    rw [if_pos hmem]
    have hidx : (sysPre ++ (dim ++ '|' :: role)).findIdx (fun c => c == '|')
        = (sysPre ++ dim).length := by
      rw [← List.append_assoc,
        findIdx_append_of_not (fun c => c == '|') (sysPre ++ dim) ('|' :: role)
          (by
            intro a ha
            rcases List.mem_append.mp ha with h | h
            · exact hsys a h
            · exact hdim' a h),
        List.findIdx_cons]
      simp
    rw [hidx, ← List.append_assoc, List.take_left]
    exact List.drop_left sysPre dim
  · have hnotmem : '|' ∉ sysPre ++ (dim ++ ':' :: role) := by
      intro hmem
      rcases List.mem_append.mp hmem with h | h
      · exact absurd h (by decide)
      · rcases List.mem_append.mp h with h' | h'
        · exact hdim h'
        · rcases List.mem_cons.mp h' with h'' | h''
          · cases h''
          · exact hrole h''
    unfold remove_role_and_sys
    rw [if_neg hnotmem]
    exact List.drop_left sysPre (dim ++ ':' :: role)

/-- Closed instance of `remove_role_and_sys_spec` at `dim = time`,
`role = depart`. -/
theorem remove_role_and_sys_spec_witness :
    remove_role_and_sys (sysPre ++ "time".data) = "time".data ∧
    remove_role_and_sys (sysPre ++ ("time".data ++ '|' :: "depart".data))
      = "time".data ∧
    remove_role_and_sys (sysPre ++ ("time".data ++ ':' :: "depart".data))
      = "time".data ++ ':' :: "depart".data :=
  remove_role_and_sys_spec "time".data "depart".data (by decide) (by decide)

theorem tryBody_body_ne_nil (rest : List Char) (n : Nat) (b lab : List Char)
    (m : Nat) (h : tryBody rest n = some (b, lab, m)) : b ≠ [] := by
  induction n with
  | zero => simp [tryBody] at h
  | succ l ih =>
    rw [tryBody] at h
    by_cases hl : leadsWith pipeSys (rest.drop (l + 1)) = true
    · rw [if_pos hl] at h
      cases hts : tryStar ((rest.drop (l + 1)).drop 5)
          ((((rest.drop (l + 1)).drop 5).takeWhile fun c => !isSpaceChar c).length) with
      | none =>
        rw [hts] at h
        exact ih h
      | some k =>
        rw [hts] at h
        injection h with h'
        injection h' with hb hrest
        intro hbnil
        rw [← hb] at hbnil
        have hrnil : rest = [] := by
          cases rest with
          | nil => rfl
          | cons r rs => simp [List.take] at hbnil
        subst hrnil
        simp [leadsWith, pipeSys] at hl
    · rw [if_neg hl] at h
      exact ih h

theorem matchMarkerAt_body_ne_nil (cs : List Char) (b lab : List Char) (m : Nat)
    (h : matchMarkerAt cs = some (b, lab, m)) : b ≠ [] := by
  cases cs with
  | nil => simp [matchMarkerAt] at h
  | cons c rest =>
    simp only [matchMarkerAt] at h
    by_cases hc : c = lbrace
    · rw [if_pos hc] at h
      exact tryBody_body_ne_nil rest _ b lab m h
    · rw [if_neg hc] at h
      cases h

theorem findallGo_body_ne_nil (fuel : Nat) :
    ∀ (cs : List Char), ∀ p ∈ findallGo fuel cs, p.1 ≠ [] := by
  induction fuel with
  | zero =>
    intro cs p hp
    simp [findallGo] at hp
  | succ fuel ih =>
    intro cs p hp
    cases cs with
    | nil => simp [findallGo] at hp
    | cons c rest =>
      unfold findallGo at hp
      cases hm : matchMarkerAt (c :: rest) with
      | none =>
        rw [hm] at hp
        exact ih rest p hp
      | some trip =>
        obtain ⟨body, lab, n⟩ := trip
        rw [hm] at hp
        rcases List.mem_cons.mp hp with rfl | hp'
        · exact matchMarkerAt_body_ne_nil (c :: rest) body lab n hm
        · exact ih _ p hp'

theorem spanLoop_chain (clean : List Char) (pairs : List (List Char × List Char))
    (pos : Nat) (spans : List (Nat × Nat × Label))
    (hne : ∀ p ∈ pairs, p.1 ≠ [])
    (h : spanLoop clean pairs pos = some spans) :
    (∀ x ∈ spans, pos ≤ x.1 ∧ x.1 < x.2.1) ∧
    List.Chain' (fun a b => a.2.1 ≤ b.1) spans := by
  induction pairs generalizing pos spans with
  | nil =>
    simp only [spanLoop] at h
    injection h with h'
    subst h'
    simp
  | cons pr rest ih =>
    obtain ⟨e, lab⟩ := pr
    cases hfind : strIndexFrom clean e pos with
    | none =>
      simp only [spanLoop, hfind] at h
      cases h
    | some s =>
      cases htl : spanLoop clean rest (s + e.length) with
      | none =>
        simp only [spanLoop, hfind, htl] at h
        cases h
      | some tl =>
        simp only [spanLoop, hfind, htl, Option.some.injEq] at h
        subst h
        have hpos : pos ≤ s := by
          unfold strIndexFrom at hfind
          have hp := List.find?_some hfind
          have := (Bool.and_eq_true _ _).mp hp
          exact of_decide_eq_true this.1
        have hlen : 0 < e.length := by
          have hee := hne (e, lab) (List.mem_cons_self _ _)
          cases e with
          | nil => exact absurd rfl hee
          | cons a as => simp
        have ihh := ih (s + e.length) tl
          (fun p hp => hne p (List.mem_cons_of_mem _ hp)) htl
        refine ⟨?_, ?_⟩
        · intro x hx
          rcases List.mem_cons.mp hx with rfl | hx'
          · exact ⟨hpos, by show s < s + e.length; omega⟩
          · have hx2 := ihh.1 x hx'
            exact ⟨by omega, hx2.2⟩
        · rw [List.chain'_cons']
          refine ⟨?_, ihh.2⟩
          intro b hb
          have hbmem : b ∈ tl := List.mem_of_mem_head? hb
          exact (ihh.1 b hbmem).1

/-- **C8.** Whenever `get_expected_spans` succeeds on one clean/annotated
pair — in particular when the same literal entity text occurs several
times among the markers — the assigned spans are strictly increasing and
non-overlapping in left-to-right order: every span starts at or after the
end of the previous one, and every span is non-empty. -/
theorem expected_spans_monotone (clean labeled : List Char)
    (spans : List (Nat × Nat × Label))
    (h : getSpansOne clean labeled = some spans) :
    (∀ x ∈ spans, x.1 < x.2.1) ∧
    List.Chain' (fun a b => a.2.1 ≤ b.1) spans := by
  unfold getSpansOne at h
  have hne : ∀ p ∈ (findallMarkers labeled).map
      (fun p => (p.1, remove_role_and_sys p.2)), p.1 ≠ [] := by
    intro p hp
    obtain ⟨q, hq, hqe⟩ := List.mem_map.mp hp
    have hq1 := findallGo_body_ne_nil labeled.length labeled q hq
    rw [← hqe]
    exact hq1
  have hc := spanLoop_chain clean _ 0 spans hne h
  exact ⟨fun x hx => (hc.1 x hx).2, hc.2⟩

/-- Closed instance of `expected_spans_monotone` on a query where the same
literal text `5` is annotated twice. -/
theorem expected_spans_monotone_witness :
    (∀ x ∈ [(0, 1, "number".data), (6, 7, "number".data)], x.1 < x.2.1) ∧
    List.Chain' (fun a b => a.2.1 ≤ b.1)
      [(0, 1, "number".data), (6, 7, "number".data)] :=
  expected_spans_monotone "5 and 5".data
    "\x7b5|sys_number\x7d and \x7b5|sys_number\x7d".data
    [(0, 1, "number".data), (6, 7, "number".data)] (by decide)

/-! ### Lemmas about the Response Normalizers -/

theorem parseMallardAux_stops_later (bad : MallardRecord)
    (rest : List MallardRecord) (d : Label)
    (hbad : parseMallardRecord bad = .laterErr d) :
    ∀ (good : List MallardRecord) (bound : Bool) (acc : Output NVal),
      parseMallardAux bound acc (good ++ bad :: rest)
        = parseMallardAux bound acc good := by
  intro good
  induction good with
  | nil =>
    intro bound acc
    simp only [List.nil_append, parseMallardAux, hbad]
  | cons g gs ih =>
    intro bound acc
    simp only [List.cons_append, parseMallardAux]
    cases hg : parseMallardRecord g with
    | dimErr => simp only [hg]
    | laterErr d' => simp only [hg]
    | ok trip =>
      obtain ⟨dd, sp, v⟩ := trip
      simp only [hg]
      exact ih true _

theorem parseMallardAux_stops_dim (bad : MallardRecord)
    (rest : List MallardRecord) (hbad : parseMallardRecord bad = .dimErr) :
    ∀ (good : List MallardRecord) (acc : Output NVal),
      parseMallardAux true acc (good ++ bad :: rest)
        = parseMallardAux true acc good := by
  intro good
  induction good with
  | nil =>
    intro acc
    simp only [List.nil_append, parseMallardAux, hbad]
    rfl
  | cons g gs ih =>
    intro acc
    simp only [List.cons_append, parseMallardAux]
    cases hg : parseMallardRecord g with
    | dimErr => simp only [hg]
    | laterErr d' => simp only [hg]
    | ok trip =>
      obtain ⟨dd, sp, v⟩ := trip
      simp only [hg]
      exact ih _

/-- **C2 counterexample.** A Mallard response whose second record is
malformed (`r['value']` is the empty list, so `r['value'][0]` raises): the
call returns, but the well-formed third record of the same response
produces no normalized entry — the single `try` around the loop stops
processing at the malformed record instead of isolating it. -/
theorem parse_mallard_drops_records_after_malformed :
    parse_mallard_response
        [⟨some "number".data, some 0, some 1, some [NVal.scalar "1".data]⟩,
         ⟨some "number".data, some 2, some 3, some []⟩,
         ⟨some timeDim, some 5, some 9, some [NVal.scalar "t".data]⟩]
      = .ok [("number".data, [((0, 1), NVal.scalar "1".data)])] ∧
    (parse_mallard_response
        [⟨some "number".data, some 0, some 1, some [NVal.scalar "1".data]⟩,
         ⟨some "number".data, some 2, some 3, some []⟩,
         ⟨some timeDim, some 5, some 9, some [NVal.scalar "t".data]⟩]).map
      (fun o => memDim o timeDim) = .ok false := by
  constructor
  · rfl
  · rfl

/-- **C2 (amended).** Failure containment of the two normalizers as coded:
in `parse_mallard_response` the single `try` wraps the whole loop, so the
first failing record stops processing and every later record is dropped.
If the failure comes after that record's `dimension` access, the call
returns the entries built so far; likewise when a later record lacks
`dimension` (the handler prints the stale `dimension` bound by an earlier
record).  But when the very first record fails at its `dimension` access,
the `except` handler's `print(dimension)` raises an uncaught
`UnboundLocalError` and the whole call fails.  `parse_duckling_response`
has no handler at all, so a record with a missing field fails the whole
call (only the unrecognized-`type` case of `time` is non-fatal).  Both
normalizers map an empty response to an empty output. -/
theorem response_normalizer_failure_containment :
    (∀ (good : List MallardRecord) (bad : MallardRecord)
       (rest : List MallardRecord) (d : Label),
       parseMallardRecord bad = .laterErr d →
       parse_mallard_response (good ++ bad :: rest)
         = parse_mallard_response good) ∧
    (∀ (bad : MallardRecord) (rest : List MallardRecord),
       parseMallardRecord bad = .dimErr →
       parse_mallard_response (bad :: rest)
         = .error "UnboundLocalError: dimension") ∧
    (∀ (g : MallardRecord) (t : Label × Span × NVal)
       (good : List MallardRecord) (bad : MallardRecord)
       (rest : List MallardRecord),
       parseMallardRecord g = .ok t → parseMallardRecord bad = .dimErr →
       parse_mallard_response (g :: (good ++ bad :: rest))
         = parse_mallard_response (g :: good)) ∧
    (∀ (r : DucklingRecord) (rest : List DucklingRecord), r.dim = none →
       parse_duckling_response (r :: rest)
         = .error "KeyError: dim or start or end") ∧
    parse_mallard_response [] = .ok [] ∧
    parse_duckling_response [] = .ok ([], []) := by
  refine ⟨?_, ?_, ?_, ?_, rfl, rfl⟩
  · intro good bad rest d hbad
    exact parseMallardAux_stops_later bad rest d hbad good false []
  · intro bad rest hbad
    show parseMallardAux false [] (bad :: rest) = _
    simp only [parseMallardAux, hbad]
    rfl
  · intro g t good bad rest hg hbad
    show parseMallardAux false [] (g :: (good ++ bad :: rest))
      = parseMallardAux false [] (g :: good)
    obtain ⟨dd, sp, v⟩ := t
    simp only [parseMallardAux, hg]
    exact parseMallardAux_stops_dim bad rest hbad good _
  · intro r rest hdim
    obtain ⟨rdim, rs, re, rv⟩ := r
    cases rdim with
    | none => rfl
    | some dd => simp at hdim

/-- Closed instance of `response_normalizer_failure_containment`: a record
failing after its `dimension` access, a first record lacking `dimension`,
a later record lacking `dimension`, and a Duckling record lacking `dim`. -/
theorem response_normalizer_failure_containment_witness :
    parse_mallard_response
        [⟨some "number".data, some 0, some 1, some [NVal.scalar "1".data]⟩,
         ⟨some "number".data, some 2, some 3, some []⟩]
      = parse_mallard_response
        [⟨some "number".data, some 0, some 1, some [NVal.scalar "1".data]⟩] ∧
    parse_mallard_response
        [⟨none, some 4, some 5, some [NVal.scalar "2".data]⟩]
      = .error "UnboundLocalError: dimension" ∧
    parse_mallard_response
        [⟨some "number".data, some 0, some 1, some [NVal.scalar "1".data]⟩,
         ⟨none, some 4, some 5, some [NVal.scalar "2".data]⟩,
         ⟨some timeDim, some 5, some 9, some [NVal.scalar "t".data]⟩]
      = parse_mallard_response
        [⟨some "number".data, some 0, some 1, some [NVal.scalar "1".data]⟩] ∧
    parse_duckling_response [⟨none, some 0, some 1, none⟩]
      = .error "KeyError: dim or start or end" :=
  ⟨response_normalizer_failure_containment.1
      [⟨some "number".data, some 0, some 1, some [NVal.scalar "1".data]⟩]
      ⟨some "number".data, some 2, some 3, some []⟩ [] "number".data rfl,
   response_normalizer_failure_containment.2.1
      ⟨none, some 4, some 5, some [NVal.scalar "2".data]⟩ [] rfl,
   response_normalizer_failure_containment.2.2.1
      ⟨some "number".data, some 0, some 1, some [NVal.scalar "1".data]⟩
      ("number".data, (0, 1), NVal.scalar "1".data) []
      ⟨none, some 4, some 5, some [NVal.scalar "2".data]⟩
      [⟨some timeDim, some 5, some 9, some [NVal.scalar "t".data]⟩] rfl rfl,
   response_normalizer_failure_containment.2.2.2.1
      ⟨none, some 0, some 1, none⟩ [] rfl⟩

/-- **C4 counterexample.** A `time` record whose value object carries the
unrecognized type `foo` is logged — but its entry IS added to the
normalized output, with Python's initial `value = None`, so the span
`(3, 7)` appears as a key under `time`, contradicting "no entry for that
record's span is added". -/
theorem duckling_unknown_time_type_entry_added :
    parse_duckling_response
        [⟨some timeDim, some 3, some 7, some ⟨some "foo".data, none, none, none⟩⟩]
      = .ok ([(timeDim, [((3, 7), NVal.null)])], ["UNEXPECTED TIME VALUE"]) ∧
    (parse_duckling_response
        [⟨some timeDim, some 3, some 7,
          some ⟨some "foo".data, none, none, none⟩⟩]).map
        (fun p => hasSpan ((lookupDim p.1 timeDim).getD []) (3, 7))
      = .ok true := by
  constructor
  · rfl
  · rfl

/-- **C4 (amended).** In `parse_duckling_response`, a record of the
value-typed dimension `time` whose value object carries an unrecognized
`type` discriminator is logged (`UNEXPECTED TIME VALUE`) and then still
normalized: an entry for the record's span is added with the `None`
value — the record is not skipped. -/
theorem duckling_unknown_time_type_null_entry (s e : Nat) (v : DucklingValue)
    (t : Label) (ht : v.vtype = some t) (h1 : t ≠ "value".data)
    (h2 : t ≠ "interval".data) :
    parse_duckling_response [⟨some timeDim, some s, some e, some v⟩]
      = .ok ([(timeDim, [((s, e), NVal.null)])], ["UNEXPECTED TIME VALUE"]) := by
  obtain ⟨vt, vv, vf, vt2⟩ := v
  simp only at ht
  subst ht
  have hrec : parseDucklingRecord ⟨some timeDim, some s, some e,
      some ⟨some t, vv, vf, vt2⟩⟩
      = .ok ((timeDim, (s, e), NVal.null), ["UNEXPECTED TIME VALUE"]) := by
    simp only [parseDucklingRecord]
    simp [h1, h2]
  show parseDucklingAux [] [] _ = _
  simp only [parseDucklingAux, hrec]
  rfl

/-- Closed instance of `duckling_unknown_time_type_null_entry`. -/
theorem duckling_unknown_time_type_null_entry_witness :
    parse_duckling_response
        [⟨some timeDim, some 10, some 14,
          some ⟨some "weird".data, none, none, none⟩⟩]
      = .ok ([(timeDim, [((10, 14), NVal.null)])], ["UNEXPECTED TIME VALUE"]) :=
  duckling_unknown_time_type_null_entry 10 14
    ⟨some "weird".data, none, none, none⟩ "weird".data rfl
    (by decide) (by decide)

end DucklingMallard
